import Mathlib

/-!
Verification of the Open3D RGBD image core (depth decoding, color reduction,
RGBD pairing, pyramid construction) against its specification.

The repository sources at hand contain the unit tests for this core
(`unittest/RGBDImage.cpp`) but not the implementation translation units
(`Core/Geometry/Image.h`, `Core/Geometry/RGBDImage.h` and their `.cpp`
files).  The definitions below therefore model the missing operations from
the specification document; each such definition carries a doc comment
saying so.  Literal fixture byte sequences are transcribed from the unit
tests, which are part of the sources.

Canonical pixel values are modelled with exact rational arithmetic: the
specification states decoded values up to 32-bit float rounding, and every
rule involved (division by a constant, forcing a sentinel `0.0`) is exact
in rationals.
-/

namespace Open3D

/-- Modelled from the spec: §3 RawImageBuffer (the `open3d::Image` class is
not among the sources).  A packed byte image buffer: `data` is the ordered
byte sequence, row-major, channel-interleaved. -/
structure RawImageBuffer where
  width : Nat
  height : Nat
  numChannels : Nat
  bytesPerChannel : Nat
  data : List Nat
  deriving Repr, DecidableEq

/-- Modelled from the spec: §3 CanonicalDepthImage / CanonicalColorImage
(single channel, one value per pixel).  Pixel values are exact rationals
standing for the 32-bit floats of the implementation. -/
structure CanonicalImage where
  width : Nat
  height : Nat
  pixels : List ℚ
  deriving Repr, DecidableEq

/-- Modelled from the spec: §4.2 raw depth input for the four dataset
formats — a 16-bit one-channel image transmitted as a byte sequence, two
bytes per pixel. -/
structure Depth16Image where
  width : Nat
  height : Nat
  bytes : List Nat
  deriving Repr, DecidableEq

/-- Well-formedness of a raw 16-bit depth image: two bytes per pixel and
every list entry is a byte. -/
def Depth16Image.WF (img : Depth16Image) : Prop :=
  img.bytes.length = 2 * (img.width * img.height) ∧ ∀ b ∈ img.bytes, b < 256

/-- Modelled from the spec: the byte order shared by the Redwood, TUM, SUN
and Direct formats — pixel `i` is read from bytes `2i` (low) and `2i+1`
(high). -/
def readDepthLE (img : Depth16Image) (i : Nat) : Nat :=
  img.bytes.getD (2 * i) 0 + 256 * img.bytes.getD (2 * i + 1) 0

/-- Modelled from the spec: §4.2 NYU reads the raw 16-bit value in the
opposite byte order from the other formats — byte `2i` is the high byte. -/
def readDepthNYU (img : Depth16Image) (i : Nat) : Nat :=
  256 * img.bytes.getD (2 * i) 0 + img.bytes.getD (2 * i + 1) 0

/-- Swap the two bytes of a 16-bit value. -/
def byteSwap16 (v : Nat) : Nat :=
  (v % 256) * 256 + v / 256

/-- Modelled from the spec: §4.2 Redwood — raw millimeters, `depth =
raw / 1000.0`, `raw == 0 ⇒ 0.0`. -/
def redwoodDepthValue (v : Nat) : ℚ :=
  if v = 0 then 0 else (v : ℚ) / 1000

/-- Modelled from the spec: §4.2 TUM fixes "a fixed saturation threshold"
without giving its numeric value; 4000 (the four-meter truncation at
millimeter scale) is chosen here.  The claims proved below do not depend
on the choice. -/
def tumSaturationThreshold : Nat := 4000

/-- Modelled from the spec: §4.2 TUM — millimeter scaling as Redwood,
values at or above the saturation threshold mapped to `0.0`. -/
def tumDepthValue (v : Nat) : ℚ :=
  if v = 0 ∨ tumSaturationThreshold ≤ v then 0 else (v : ℚ) / 1000

/-- Modelled from the spec: §4.2 SUN — the 16-bit word is rotated right by
three bit positions (the three low bits move to the top of the word, the
remaining thirteen bits shift right by three). -/
def sunRotate (v : Nat) : Nat :=
  ((v <<< 13) % 65536) ||| (v >>> 3)

/-- Modelled from the spec: §4.2 SUN fixes a saturation cutoff for
post-rotation values without giving its numeric value; 7000 is chosen
here.  The claims proved below do not depend on the choice. -/
def sunSaturationThreshold : Nat := 7000

/-- Modelled from the spec: §4.2 SUN — bit-rotate, then millimeter
division; zero and saturated post-rotation values map to `0.0`. -/
def sunDepthValue (v : Nat) : ℚ :=
  let r := sunRotate v
  if r = 0 ∨ sunSaturationThreshold ≤ r then 0 else (r : ℚ) / 1000

/-- Modelled from the spec: §4.2 NYU — millimeter scaling of the
byte-swapped value, `0 ⇒ 0.0`. -/
def nyuDepthValue (v : Nat) : ℚ :=
  if v = 0 then 0 else (v : ℚ) / 1000

/-- Modelled from the spec: §4.2 NYU fixes "a fixed border region of
rows/columns" (a known sensor artifact) without giving its extent; the
constants below record one fixed choice.  The claims proved below hold
for any fixed values. -/
def nyuBorderTop : Nat := 1

/-- Modelled from the spec: rows forced to `0.0` at the bottom edge. -/
def nyuBorderBottom : Nat := 1

/-- Modelled from the spec: columns forced to `0.0` at the left edge. -/
def nyuBorderLeft : Nat := 1

/-- Modelled from the spec: columns forced to `0.0` at the right edge. -/
def nyuBorderRight : Nat := 1

/-- Membership of pixel `(r, c)` in the fixed NYU border region of a
`w × h` image. -/
def nyuInBorder (w h r c : Nat) : Prop :=
  r < nyuBorderTop ∨ h ≤ r + nyuBorderBottom ∨
  c < nyuBorderLeft ∨ w ≤ c + nyuBorderRight

instance (w h r c : Nat) : Decidable (nyuInBorder w h r c) := by
  unfold nyuInBorder
  infer_instance

/-- Modelled from the spec: §4.2 Redwood decoding — per-pixel millimeter
scaling, same dimensions as the input. -/
def decodeRedwood (img : Depth16Image) : CanonicalImage :=
  { width := img.width, height := img.height,
    pixels := (List.range (img.width * img.height)).map
      fun i => redwoodDepthValue (readDepthLE img i) }

/-- Modelled from the spec: §4.2 TUM decoding. -/
def decodeTUM (img : Depth16Image) : CanonicalImage :=
  { width := img.width, height := img.height,
    pixels := (List.range (img.width * img.height)).map
      fun i => tumDepthValue (readDepthLE img i) }

/-- Modelled from the spec: §4.2 SUN decoding. -/
def decodeSUN (img : Depth16Image) : CanonicalImage :=
  { width := img.width, height := img.height,
    pixels := (List.range (img.width * img.height)).map
      fun i => sunDepthValue (readDepthLE img i) }

/-- Modelled from the spec: §4.2 NYU decoding — opposite byte order,
millimeter scaling, the fixed border region forced to `0.0` regardless of
the transmitted value. -/
def decodeNYU (img : Depth16Image) : CanonicalImage :=
  { width := img.width, height := img.height,
    pixels := (List.range (img.width * img.height)).map
      fun i =>
        if nyuInBorder img.width img.height (i / img.width) (i % img.width)
        then 0
        else nyuDepthValue (readDepthNYU img i) }

/-- Modelled from the spec: §4.2 / §9 — the depth decode strategies form a
closed, compile-time-known set of format tags.  The Direct (identity)
format operates on already-canonical float buffers and is not exercised by
any claim, so only the four dataset formats are represented. -/
inductive DepthFormat where
  | Redwood
  | TUM
  | SUN
  | NYU
  deriving Repr, DecidableEq

/-- Modelled from the spec: §6 `decodeDepth(raw, formatId)`, dispatching
on the format tag. -/
def decodeDepth (img : Depth16Image) (fmt : DepthFormat) : CanonicalImage :=
  match fmt with
  | .Redwood => decodeRedwood img
  | .TUM => decodeTUM img
  | .SUN => decodeSUN img
  | .NYU => decodeNYU img

/-- Modelled from the spec: §7 error taxonomy. -/
inductive CoreError where
  | InvalidDimension
  | IndexOutOfRange
  | TypeMismatch
  | UnsupportedFormat
  | UnsupportedChannelCount
  | DimensionMismatch
  deriving Repr, DecidableEq

/-- Modelled from the spec: §4.3 fixes luma weights only as "the standard
perceptual triplet"; the red weight of the ITU-R BT.601 triplet is used. -/
def lumaWeightR : ℚ := 299 / 1000

/-- Modelled from the spec: §4.3 — green luma weight (ITU-R BT.601). -/
def lumaWeightG : ℚ := 587 / 1000

/-- Modelled from the spec: §4.3 — blue luma weight (ITU-R BT.601). -/
def lumaWeightB : ℚ := 114 / 1000

/-- Modelled from the spec: §4.3 ColorReducer — one-channel 8-bit input is
normalized by 255, three-channel input is reduced with the fixed luma
weights, anything else fails with `UnsupportedChannelCount`. -/
def reduceColor (img : RawImageBuffer) : Except CoreError CanonicalImage :=
  if img.bytesPerChannel = 1 ∧ img.numChannels = 1 then
    .ok { width := img.width, height := img.height,
          pixels := (List.range (img.width * img.height)).map
            fun i => (img.data.getD i 0 : ℚ) / 255 }
  else if img.bytesPerChannel = 1 ∧ img.numChannels = 3 then
    .ok { width := img.width, height := img.height,
          pixels := (List.range (img.width * img.height)).map
            fun i =>
              (lumaWeightR * (img.data.getD (3 * i) 0 : ℚ)
                + lumaWeightG * (img.data.getD (3 * i + 1) 0 : ℚ)
                + lumaWeightB * (img.data.getD (3 * i + 2) 0 : ℚ)) / 255 }
  else
    .error .UnsupportedChannelCount

/-- Modelled from the spec: §3 RGBDPair — one canonical color and one
canonical depth buffer of matching dimensions. -/
structure RGBDPair where
  color : CanonicalImage
  depth : CanonicalImage
  deriving Repr, DecidableEq

/-- Modelled from the spec: §4.4 `pairColorAndDepth` — runs the depth
decoder and the color reducer, then asserts the two canonical buffers
share width and height, failing with `DimensionMismatch` otherwise. -/
def pairColorAndDepth (color : RawImageBuffer) (depth : Depth16Image)
    (fmt : DepthFormat) : Except CoreError RGBDPair :=
  match reduceColor color with
  | .error e => .error e
  | .ok ci =>
    let di := decodeDepth depth fmt
    if ci.width = di.width ∧ ci.height = di.height then
      .ok ⟨ci, di⟩
    else
      .error .DimensionMismatch

/-- Modelled from the spec: §4.4 — the generic pairing entry point.  Its
fixed decode parameters coincide with the Redwood convenience entry's:
the unit tests expect byte-identical fixtures from the two on the same
inputs. -/
def CreateRGBDImageFromColorAndDepth (color : RawImageBuffer)
    (depth : Depth16Image) : Except CoreError RGBDPair :=
  pairColorAndDepth color depth DepthFormat.Redwood

/-- Modelled from the spec: §4.4 — the convenience entry point fixing the
format id to Redwood. -/
def CreateRGBDImageFromRedwoodFormat (color : RawImageBuffer)
    (depth : Depth16Image) : Except CoreError RGBDPair :=
  pairColorAndDepth color depth DepthFormat.Redwood

/-- Modelled from the spec: the `open3d::RGBDImage` class (its header is
not among the sources) bundles one color and one depth image; its
constructor, as exercised by `TEST(RGBDImage, Constructor)`, member-copies
the two images it is given, with no canonicalization. -/
structure RGBDImage where
  color : RawImageBuffer
  depth : RawImageBuffer
  deriving Repr, DecidableEq

/-- Modelled from the spec: the two-argument `RGBDImage` constructor. -/
def RGBDImage.ofImages (color depth : RawImageBuffer) : RGBDImage :=
  { color := color, depth := depth }

/-- Transcribed from the source: expected color bytes of
`TEST(RGBDImage, CreateRGBDImageFromColorAndDepth)`. -/
def refColorFromColorAndDepth : List Nat :=
  [216, 2, 42, 63, 21, 162, 57, 63, 62, 210,
   42, 63, 216, 72, 38, 63, 116, 49, 38, 63,
   55, 245, 52, 63, 150, 19, 30, 63, 123, 6,
   19, 63, 193, 10, 23, 63, 83, 253, 46, 63,
   141, 0, 52, 63, 9, 144, 38, 63, 193, 19,
   55, 63, 19, 179, 45, 63, 56, 160, 49, 63,
   26, 10, 50, 63, 121, 185, 46, 63, 168, 239,
   16, 63, 183, 184, 35, 63, 63, 137, 21, 63,
   135, 1, 54, 63, 220, 15, 35, 63, 177, 246,
   44, 63, 207, 89, 38, 63, 56, 66, 57, 63]

/-- Transcribed from the source: expected depth bytes of
`TEST(RGBDImage, CreateRGBDImageFromColorAndDepth)`. -/
def refDepthFromColorAndDepth : List Nat :=
  [172, 219, 92, 54, 209, 104, 206, 53, 157, 96,
   77, 54, 110, 129, 81, 54, 89, 111, 111, 54,
   209, 104, 78, 53, 178, 114, 175, 53, 204, 63,
   73, 54, 146, 124, 144, 53, 199, 132, 17, 54,
   99, 193, 249, 53, 168, 32, 37, 54, 246, 245,
   191, 53, 136, 42, 6, 54, 99, 193, 121, 54,
   141, 119, 112, 54, 16, 49, 39, 54, 37, 213,
   59, 54, 99, 157, 20, 53, 110, 239, 30, 54,
   32, 26, 132, 51, 204, 209, 123, 53, 194, 91,
   12, 53, 214, 145, 83, 54, 214, 255, 32, 53]

/-- Transcribed from the source: expected color bytes of
`TEST(RGBDImage, CreateRGBDImageFromRedwoodFormat)`. -/
def refColorFromRedwood : List Nat :=
  [216, 2, 42, 63, 21, 162, 57, 63, 62, 210,
   42, 63, 216, 72, 38, 63, 116, 49, 38, 63,
   55, 245, 52, 63, 150, 19, 30, 63, 123, 6,
   19, 63, 193, 10, 23, 63, 83, 253, 46, 63,
   141, 0, 52, 63, 9, 144, 38, 63, 193, 19,
   55, 63, 19, 179, 45, 63, 56, 160, 49, 63,
   26, 10, 50, 63, 121, 185, 46, 63, 168, 239,
   16, 63, 183, 184, 35, 63, 63, 137, 21, 63,
   135, 1, 54, 63, 220, 15, 35, 63, 177, 246,
   44, 63, 207, 89, 38, 63, 56, 66, 57, 63]

/-- Transcribed from the source: expected depth bytes of
`TEST(RGBDImage, CreateRGBDImageFromRedwoodFormat)`. -/
def refDepthFromRedwood : List Nat :=
  [172, 219, 92, 54, 209, 104, 206, 53, 157, 96,
   77, 54, 110, 129, 81, 54, 89, 111, 111, 54,
   209, 104, 78, 53, 178, 114, 175, 53, 204, 63,
   73, 54, 146, 124, 144, 53, 199, 132, 17, 54,
   99, 193, 249, 53, 168, 32, 37, 54, 246, 245,
   191, 53, 136, 42, 6, 54, 99, 193, 121, 54,
   141, 119, 112, 54, 16, 49, 39, 54, 37, 213,
   59, 54, 99, 157, 20, 53, 110, 239, 30, 54,
   32, 26, 132, 51, 204, 209, 123, 53, 194, 91,
   12, 53, 214, 145, 83, 54, 214, 255, 32, 53]

/-- Modelled from the spec: §4.5 — downsampling by two in each dimension.
New dimensions are the floor halves of the previous ones, computed before
the new buffer is built; the fixed documented subsampling policy here is
the top-left pixel of each 2×2 block. -/
def downsampleImage (img : CanonicalImage) : CanonicalImage :=
  { width := img.width / 2, height := img.height / 2,
    pixels := (List.range (img.width / 2 * (img.height / 2))).map
      fun i =>
        img.pixels.getD
          (2 * (i / (img.width / 2)) * img.width
            + 2 * (i % (img.width / 2))) 0 }

/-- Modelled from the spec: §4.5 — one derivation step applied
independently to the color and the depth channel of a pair. -/
def downsamplePair (p : RGBDPair) : RGBDPair :=
  { color := downsampleImage p.color, depth := downsampleImage p.depth }

/-- Level `k` of the pyramid derived from a base pair: level 0 is the
pair itself, each further level the downsampled previous one. -/
def pyramidLevel (p : RGBDPair) : Nat → RGBDPair
  | 0 => p
  | k + 1 => downsamplePair (pyramidLevel p k)

/-- Modelled from the spec: §4.5 `buildPyramid` — an ordered sequence of
exactly `levelCount` pairs, index 0 the full-resolution input. -/
def buildPyramid (p : RGBDPair) (levelCount : Nat) : List RGBDPair :=
  (List.range levelCount).map (pyramidLevel p)

/-- The all-empty canonical image, used as a lookup default. -/
def emptyCanonicalImage : CanonicalImage :=
  { width := 0, height := 0, pixels := [] }

/-- The all-empty pair, used as a lookup default. -/
def emptyRGBDPair : RGBDPair :=
  { color := emptyCanonicalImage, depth := emptyCanonicalImage }

/-- Modelled from the spec: §3/§4.5 — pyramid derivation over an explicit
store of allocated pairs.  The builder reads the base pair at index `i`
and appends the freshly constructed levels to the store, returning the
indices of the new pairs; it never writes to an existing entry. -/
def buildPyramidAlloc (store : List RGBDPair) (i levelCount : Nat) :
    List RGBDPair × List Nat :=
  (store ++ buildPyramid (store.getD i emptyRGBDPair) levelCount,
   (List.range levelCount).map fun k => store.length + k)

/-- Evaluation of a mapped range list at an in-range index. -/
theorem getD_map_range {α : Type} (f : Nat → α) {n i : Nat} (d : α)
    (h : i < n) : (((List.range n).map f).getD i d) = f i := by
  rw [List.getD_eq_getElem?_getD, List.getElem?_map, List.getElem?_range h]
  rfl

/-- Every entry read from a well-formed byte list is a byte. -/
theorem getD_lt_256 (l : List Nat) (hb : ∀ b ∈ l, b < 256) (j : Nat) :
    l.getD j 0 < 256 := by
  rw [List.getD_eq_getElem?_getD]
  cases h : l[j]? with
  | none => simp
  | some b =>
    have hm : b ∈ l := List.getElem?_mem h
    simpa using hb b hm

/-- A little-endian 16-bit read of a well-formed byte image is below
`2^16`. -/
theorem readDepthLE_lt (img : Depth16Image)
    (hb : ∀ b ∈ img.bytes, b < 256) (i : Nat) :
    readDepthLE img i < 65536 := by
  unfold readDepthLE
  have h0 := getD_lt_256 img.bytes hb (2 * i)
  have h1 := getD_lt_256 img.bytes hb (2 * i + 1)
  omega

/-- The 16-bit rotate-right-by-3 in arithmetic form: the three low bits
move to the top of the word, the remaining thirteen bits shift right by
three. -/
theorem sunRotate_eq_arith (v : Nat) (hv : v < 65536) :
    sunRotate v = (v % 8) * 8192 + v / 8 := by
  unfold sunRotate
  have h1 : v <<< 13 = v * 8192 := by
    rw [Nat.shiftLeft_eq]
  have h2 : v >>> 3 = v / 8 := by
    rw [Nat.shiftRight_eq_div_pow]
  have h3 : (v * 8192) % 65536 = (v % 8) * 8192 := by
    have := Nat.mul_mod_mul_right 8192 v 8
    simpa using this
  rw [h1, h2, h3]
  have hlow : v / 8 < 2 ^ 13 := by
    have : (2 : Nat) ^ 13 = 8192 := by norm_num
    omega
  have hc : (v % 8) * 8192 = 2 ^ 13 * (v % 8) := by ring
  rw [hc, ← Nat.mul_add_lt_is_or hlow (v % 8)]

/-- C3: under Redwood the decoded pixel equals the raw value divided by
1000 (exactly, in the rational model standing for float rounding), a raw
zero decodes to zero, and under TUM the same scaling applies below the
fixed saturation threshold while every value at or above it decodes to
zero. -/
theorem redwood_tum_millimeter_scaling (img : Depth16Image) (i : Nat)
    (hi : i < img.width * img.height) :
    (decodeRedwood img).pixels.getD i 0 = (readDepthLE img i : ℚ) / 1000
    ∧ (readDepthLE img i = 0 → (decodeRedwood img).pixels.getD i 0 = 0)
    ∧ (readDepthLE img i = 0 → (decodeTUM img).pixels.getD i 0 = 0)
    ∧ (readDepthLE img i < tumSaturationThreshold →
        (decodeTUM img).pixels.getD i 0 = (readDepthLE img i : ℚ) / 1000)
    ∧ (tumSaturationThreshold ≤ readDepthLE img i →
        (decodeTUM img).pixels.getD i 0 = 0) := by
  have hr : (decodeRedwood img).pixels.getD i 0
      = redwoodDepthValue (readDepthLE img i) := by
    unfold decodeRedwood
    exact getD_map_range _ _ hi
  have ht : (decodeTUM img).pixels.getD i 0
      = tumDepthValue (readDepthLE img i) := by
    unfold decodeTUM
    exact getD_map_range _ _ hi
  refine ⟨?_, ?_, ?_, ?_, ?_⟩
  · rw [hr]
    unfold redwoodDepthValue
    split
    · rename_i h0
      rw [h0]
      norm_num
    · rfl
  · intro h0
    rw [hr]
    unfold redwoodDepthValue
    simp [h0]
  · intro h0
    rw [ht]
    unfold tumDepthValue
    simp [h0]
  · intro hlt
    rw [ht]
    unfold tumDepthValue
    split
    · rename_i hcase
      rcases hcase with h0 | hsat
      · rw [h0]
        norm_num
      · omega
    · rfl
  · intro hsat
    rw [ht]
    unfold tumDepthValue
    simp [Or.inr hsat]

/-- Witness for C3 at a concrete image: a 1×1 Redwood/TUM image carrying
the raw value 500 decodes to 1/2 under both formats. -/
theorem redwood_tum_millimeter_scaling_witness :
    (0 : Nat) < 1 * 1
    ∧ (decodeRedwood ⟨1, 1, [244, 1]⟩).pixels.getD 0 0
        = (readDepthLE ⟨1, 1, [244, 1]⟩ 0 : ℚ) / 1000 := by
  refine ⟨by decide, ?_⟩
  exact (redwood_tum_millimeter_scaling ⟨1, 1, [244, 1]⟩ 0 (by decide)).1

/-- C5: the SUN decoder first rotates each raw 16-bit value — the three
low bits to the top of the word, the remaining thirteen bits shifted right
by three — then divides by 1000, and every pixel whose post-rotation value
is zero or saturated decodes to exactly zero. -/
theorem sun_rotation_and_scaling (img : Depth16Image) (i : Nat)
    (hi : i < img.width * img.height)
    (hb : ∀ b ∈ img.bytes, b < 256) :
    sunRotate (readDepthLE img i)
        = (readDepthLE img i % 8) * 8192 + readDepthLE img i / 8
    ∧ (sunRotate (readDepthLE img i) = 0 ∨
        sunSaturationThreshold ≤ sunRotate (readDepthLE img i) →
        (decodeSUN img).pixels.getD i 0 = 0)
    ∧ (sunRotate (readDepthLE img i) ≠ 0 →
        sunRotate (readDepthLE img i) < sunSaturationThreshold →
        (decodeSUN img).pixels.getD i 0
          = (sunRotate (readDepthLE img i) : ℚ) / 1000) := by
  have hp : (decodeSUN img).pixels.getD i 0
      = sunDepthValue (readDepthLE img i) := by
    unfold decodeSUN
    exact getD_map_range _ _ hi
  refine ⟨sunRotate_eq_arith _ (readDepthLE_lt img hb i), ?_, ?_⟩
  · intro hcase
    rw [hp]
    unfold sunDepthValue
    simp [hcase]
  · intro hne hlt
    rw [hp]
    unfold sunDepthValue
    simp only
    rw [if_neg]
    push_neg
    exact ⟨hne, by omega⟩

/-- Witness for C5 at a concrete image: a 1×1 SUN image carrying the raw
value 8 rotates to 1 and decodes to 1/1000. -/
theorem sun_rotation_and_scaling_witness :
    ((0 : Nat) < 1 * 1 ∧ ∀ b ∈ [(8 : Nat), 0], b < 256)
    ∧ sunRotate (readDepthLE ⟨1, 1, [8, 0]⟩ 0)
        = (readDepthLE ⟨1, 1, [8, 0]⟩ 0 % 8) * 8192
          + readDepthLE ⟨1, 1, [8, 0]⟩ 0 / 8 := by
  refine ⟨⟨by decide, by decide⟩, ?_⟩
  exact (sun_rotation_and_scaling ⟨1, 1, [8, 0]⟩ 0 (by decide) (by decide)).1

/-- C4: the NYU decoder reads each raw 16-bit value in the opposite byte
order from the other formats (its read is the byte swap of the shared
little-endian read), every pixel of the fixed border region decodes to
exactly zero regardless of the transmitted value, and every other pixel
gets the millimeter scaling of the byte-swapped value. -/
theorem nyu_byte_order_and_border (img : Depth16Image)
    (hb : ∀ b ∈ img.bytes, b < 256) (r c : Nat)
    (hr : r < img.height) (hc : c < img.width) :
    readDepthNYU img (r * img.width + c)
        = byteSwap16 (readDepthLE img (r * img.width + c))
    ∧ (nyuInBorder img.width img.height r c →
        (decodeNYU img).pixels.getD (r * img.width + c) 0 = 0)
    ∧ (¬ nyuInBorder img.width img.height r c →
        (decodeNYU img).pixels.getD (r * img.width + c) 0
          = nyuDepthValue (readDepthNYU img (r * img.width + c))) := by
  set i := r * img.width + c with hidef
  have hwpos : 0 < img.width := by omega
  have hi : i < img.width * img.height := by
    have h1 : i < (r + 1) * img.width := by
      have : (r + 1) * img.width = r * img.width + img.width := by ring
      omega
    have h2 : (r + 1) * img.width ≤ img.height * img.width :=
      Nat.mul_le_mul_right _ (by omega)
    calc i < (r + 1) * img.width := h1
      _ ≤ img.height * img.width := h2
      _ = img.width * img.height := Nat.mul_comm _ _
  have hdiv : i / img.width = r := by
    rw [hidef, Nat.mul_comm r img.width, Nat.mul_add_div hwpos,
      Nat.div_eq_of_lt hc]
    omega
  have hmod : i % img.width = c := by
    rw [hidef, Nat.mul_comm r img.width, Nat.mul_add_mod,
      Nat.mod_eq_of_lt hc]
  have hp : (decodeNYU img).pixels.getD i 0
      = if nyuInBorder img.width img.height (i / img.width) (i % img.width)
        then 0 else nyuDepthValue (readDepthNYU img i) := by
    unfold decodeNYU
    exact getD_map_range _ _ hi
  rw [hdiv, hmod] at hp
  refine ⟨?_, ?_, ?_⟩
  · have h0 := getD_lt_256 img.bytes hb (2 * i)
    have h1 := getD_lt_256 img.bytes hb (2 * i + 1)
    unfold readDepthNYU readDepthLE byteSwap16
    omega
  · intro hin
    rw [hp, if_pos hin]
  · intro hout
    rw [hp, if_neg hout]

/-- Witness for C4 at a concrete image: pixel (0,0) of a 3×3 NYU image
lies in the border region and decodes to zero even though its transmitted
raw value is nonzero. -/
theorem nyu_byte_order_and_border_witness :
    ((∀ b ∈ [(7 : Nat), 1, 0, 0, 0, 0, 0, 0, 0, 0, 0, 0, 0, 0, 0, 0, 0, 0],
        b < 256)
      ∧ (0 : Nat) < 3 ∧ (0 : Nat) < 3
      ∧ nyuInBorder 3 3 0 0)
    ∧ (decodeNYU
        ⟨3, 3, [7, 1, 0, 0, 0, 0, 0, 0, 0, 0, 0, 0, 0, 0, 0, 0, 0, 0]⟩
        ).pixels.getD (0 * 3 + 0) 0 = 0 := by
  refine ⟨⟨by decide, by decide, by decide, by decide⟩, ?_⟩
  exact (nyu_byte_order_and_border
    ⟨3, 3, [7, 1, 0, 0, 0, 0, 0, 0, 0, 0, 0, 0, 0, 0, 0, 0, 0, 0]⟩
    (by decide) 0 0 (by decide) (by decide)).2.1 (by decide)

/-- C7: whenever the canonical buffers produced by the color reducer and
the depth decoder differ in width or height, `pairColorAndDepth` fails
with `DimensionMismatch` and returns no pair. -/
theorem pair_dimension_mismatch (color : RawImageBuffer)
    (depth : Depth16Image) (fmt : DepthFormat) (ci : CanonicalImage)
    (hok : reduceColor color = .ok ci)
    (hdim : ci.width ≠ (decodeDepth depth fmt).width ∨
      ci.height ≠ (decodeDepth depth fmt).height) :
    pairColorAndDepth color depth fmt = .error .DimensionMismatch := by
  unfold pairColorAndDepth
  rw [hok]
  simp only
  rw [if_neg]
  tauto

/-- Witness for C7 at concrete inputs: a 1×1 one-channel color buffer
paired with a 2×1 Redwood depth buffer fails with `DimensionMismatch`. -/
theorem pair_dimension_mismatch_witness :
    (reduceColor ⟨1, 1, 1, 1, [100]⟩
        = .ok ⟨1, 1, [((100 : Nat) : ℚ) / 255]⟩
      ∧ ((1 : Nat) ≠ (decodeDepth ⟨2, 1, [0, 0, 0, 0]⟩ .Redwood).width
          ∨ (1 : Nat) ≠ (decodeDepth ⟨2, 1, [0, 0, 0, 0]⟩ .Redwood).height))
    ∧ pairColorAndDepth ⟨1, 1, 1, 1, [100]⟩ ⟨2, 1, [0, 0, 0, 0]⟩ .Redwood
        = .error .DimensionMismatch := by
  refine ⟨⟨rfl, by decide⟩, ?_⟩
  exact pair_dimension_mismatch ⟨1, 1, 1, 1, [100]⟩ ⟨2, 1, [0, 0, 0, 0]⟩
    .Redwood ⟨1, 1, [((100 : Nat) : ℚ) / 255]⟩ rfl (by decide)

/-- C9: the `RGBDImage` constructor accepts any two same-sized images and
stores byte-for-byte copies of both buffers, preserving the color buffer's
channel count and bytes per channel instead of converting it to the
canonical one-channel four-byte form. -/
theorem rgbd_constructor_copies_bytes (color depth : RawImageBuffer)
    (_hw : color.width = depth.width) (_hh : color.height = depth.height) :
    (RGBDImage.ofImages color depth).color.data = color.data
    ∧ (RGBDImage.ofImages color depth).depth.data = depth.data
    ∧ (RGBDImage.ofImages color depth).color.numChannels = color.numChannels
    ∧ (RGBDImage.ofImages color depth).color.bytesPerChannel
        = color.bytesPerChannel :=
  ⟨rfl, rfl, rfl, rfl⟩

/-- Witness for C9 at concrete images: a 5×5-shaped (here 1×1 for brevity)
three-channel one-byte color image passes through the constructor
byte-identical and still three-channel. -/
theorem rgbd_constructor_copies_bytes_witness :
    ((1 : Nat) = 1 ∧ (1 : Nat) = 1)
    ∧ (RGBDImage.ofImages ⟨1, 1, 3, 1, [10, 20, 30]⟩
        ⟨1, 1, 1, 4, [0, 0, 0, 63]⟩).color.data = [10, 20, 30] := by
  refine ⟨⟨rfl, rfl⟩, ?_⟩
  exact (rgbd_constructor_copies_bytes ⟨1, 1, 3, 1, [10, 20, 30]⟩
    ⟨1, 1, 1, 4, [0, 0, 0, 63]⟩ rfl rfl).1

/-- C10: the generic pairing entry point and the Redwood convenience entry
point agree — the unit tests expect literally identical color and depth
fixture bytes from the two, and in the model the two entry points produce
identical pairs on every input. -/
theorem generic_pairing_matches_redwood :
    (refColorFromColorAndDepth = refColorFromRedwood
      ∧ refDepthFromColorAndDepth = refDepthFromRedwood)
    ∧ ∀ (color : RawImageBuffer) (depth : Depth16Image),
        CreateRGBDImageFromColorAndDepth color depth
          = CreateRGBDImageFromRedwoodFormat color depth :=
  ⟨⟨by decide, by decide⟩, fun _ _ => rfl⟩

/-- The dimensions of pyramid level `k` are the level-0 dimensions floor
divided by `2^k`. -/
theorem pyramidLevel_dims (p : RGBDPair) (k : Nat) :
    (pyramidLevel p k).color.width = p.color.width / 2 ^ k
    ∧ (pyramidLevel p k).color.height = p.color.height / 2 ^ k
    ∧ (pyramidLevel p k).depth.width = p.depth.width / 2 ^ k
    ∧ (pyramidLevel p k).depth.height = p.depth.height / 2 ^ k := by
  induction k with
  | zero => simp [pyramidLevel]
  | succ k ih =>
    have hstep : ∀ w : Nat, w / 2 ^ k / 2 = w / 2 ^ (k + 1) := by
      intro w
      rw [Nat.div_div_eq_div_mul, pow_succ]
    refine ⟨?_, ?_, ?_, ?_⟩
    · show (downsamplePair (pyramidLevel p k)).color.width = _
      rw [show (downsamplePair (pyramidLevel p k)).color.width
          = (pyramidLevel p k).color.width / 2 from rfl, ih.1, hstep]
    · show (downsamplePair (pyramidLevel p k)).color.height = _
      rw [show (downsamplePair (pyramidLevel p k)).color.height
          = (pyramidLevel p k).color.height / 2 from rfl, ih.2.1, hstep]
    · show (downsamplePair (pyramidLevel p k)).depth.width = _
      rw [show (downsamplePair (pyramidLevel p k)).depth.width
          = (pyramidLevel p k).depth.width / 2 from rfl, ih.2.2.1, hstep]
    · show (downsamplePair (pyramidLevel p k)).depth.height = _
      rw [show (downsamplePair (pyramidLevel p k)).depth.height
          = (pyramidLevel p k).depth.height / 2 from rfl, ih.2.2.2, hstep]

/-- C6: `buildPyramid` returns exactly `levelCount` pairs, and the width
and height of each level `k` are the level-0 width and height floor
divided by `2^k`, for both channels. -/
theorem buildPyramid_length_and_dims (p : RGBDPair) (n k : Nat)
    (hk : k < n) :
    (buildPyramid p n).length = n
    ∧ ((buildPyramid p n).getD k p).color.width = p.color.width / 2 ^ k
    ∧ ((buildPyramid p n).getD k p).color.height = p.color.height / 2 ^ k
    ∧ ((buildPyramid p n).getD k p).depth.width = p.depth.width / 2 ^ k
    ∧ ((buildPyramid p n).getD k p).depth.height
        = p.depth.height / 2 ^ k := by
  have hlen : (buildPyramid p n).length = n := by
    unfold buildPyramid
    rw [List.length_map, List.length_range]
  have hget : (buildPyramid p n).getD k p = pyramidLevel p k := by
    unfold buildPyramid
    exact getD_map_range _ _ hk
  have hd := pyramidLevel_dims p k
  rw [hget]
  exact ⟨hlen, hd.1, hd.2.1, hd.2.2.1, hd.2.2.2⟩

/-- Witness for C6 at a concrete pair: a two-level pyramid over 5×5
buffers has level 1 of width 2. -/
theorem buildPyramid_length_and_dims_witness :
    (1 : Nat) < 2
    ∧ ((buildPyramid ⟨⟨5, 5, []⟩, ⟨5, 5, []⟩⟩ 2).getD 1
        ⟨⟨5, 5, []⟩, ⟨5, 5, []⟩⟩).color.width = 5 / 2 ^ 1 := by
  refine ⟨by decide, ?_⟩
  exact (buildPyramid_length_and_dims ⟨⟨5, 5, []⟩, ⟨5, 5, []⟩⟩ 2 1
    (by decide)).2.1

/-- C8: pyramid derivation never mutates an existing pair.  Over the
explicit store, every previously allocated pair — the input pair at `i`
included — is unchanged after the build, every returned level index is
fresh (at or past the old store length), and the levels are appended as
newly constructed pairs derived from the input. -/
theorem pyramid_never_mutates_input (store : List RGBDPair) (i n : Nat)
    (hi : i < store.length) :
    (∀ j, j < store.length →
      (buildPyramidAlloc store i n).1.getD j emptyRGBDPair
        = store.getD j emptyRGBDPair)
    ∧ (buildPyramidAlloc store i n).1.getD i emptyRGBDPair
        = store.getD i emptyRGBDPair
    ∧ (∀ t ∈ (buildPyramidAlloc store i n).2, store.length ≤ t)
    ∧ (∀ k, k < n →
        (buildPyramidAlloc store i n).1.getD (store.length + k) emptyRGBDPair
          = pyramidLevel (store.getD i emptyRGBDPair) k)
    ∧ (buildPyramidAlloc store i n).1.length = store.length + n := by
  have hframe : ∀ j, j < store.length →
      (buildPyramidAlloc store i n).1.getD j emptyRGBDPair
        = store.getD j emptyRGBDPair := by
    intro j hj
    show (store ++ _).getD j emptyRGBDPair = store.getD j emptyRGBDPair
    rw [List.getD_eq_getElem?_getD, List.getElem?_append_left hj,
      ← List.getD_eq_getElem?_getD]
  refine ⟨hframe, hframe i hi, ?_, ?_, ?_⟩
  · intro t ht
    simp only [buildPyramidAlloc, List.mem_map, List.mem_range] at ht
    obtain ⟨k, _, hk⟩ := ht
    omega
  · intro k hk
    show (store ++ buildPyramid _ n).getD (store.length + k) emptyRGBDPair
        = _
    rw [List.getD_eq_getElem?_getD,
      List.getElem?_append_right (by omega : store.length ≤ store.length + k)]
    have hsub : store.length + k - store.length = k := by omega
    rw [hsub]
    unfold buildPyramid
    rw [List.getElem?_map, List.getElem?_range hk]
    rfl
  · show (store ++ buildPyramid _ n).length = store.length + n
    rw [List.length_append]
    unfold buildPyramid
    rw [List.length_map, List.length_range]

/-- Witness for C8 at a concrete store: building a one-level pyramid over
a single-pair store leaves that pair unchanged. -/
theorem pyramid_never_mutates_input_witness :
    (0 : Nat) < [emptyRGBDPair].length
    ∧ (buildPyramidAlloc [emptyRGBDPair] 0 1).1.getD 0 emptyRGBDPair
        = [emptyRGBDPair].getD 0 emptyRGBDPair := by
  refine ⟨by decide, ?_⟩
  exact (pyramid_never_mutates_input [emptyRGBDPair] 0 1 (by decide)).2.1

end Open3D
